import Mathlib

/-!
Verification of the TF-IDF inverted-index search core of the repository
(backend/apps/search/services/{preprocessor,indexer,search}.py).

Shallow embedding conventions:
* A publication is modelled as a pair of its database id and the raw token
  list that the external tokenizer (regex cleanup + nltk word_tokenize,
  preprocessor.py lines 66-85) produces from `title + " " + abstract`.
* The Porter stemmer and the English stopword set are external collaborators
  (nltk / sklearn data); they are abstracted as the fields of `Prep`.
* Python floats are modelled as real numbers; `math.log` is `Real.log`.
* Database tables are modelled as lists in row-creation order: Django's
  `bulk_create` appends, `delete` filters.
-/

namespace IRSearch

/-! ## Preprocessor (services/preprocessor.py, lines 87-105)

The loop over tokens skips a token when `len(token) < 2 or token in
self.stop_words`, skips it when `token.isdigit()`, and otherwise appends
`self.stemmer.stem(token)`. -/

/-- Abstraction of the external collaborators of `TextPreprocessor.preprocess`:
the nltk `PorterStemmer.stem` function and the English stopword set
(`stopwords.words("english")`, with sklearn fallback). -/
structure Prep where
  stem : String → String
  stop : String → Bool

/-- Python `str.isdigit` restricted to the ASCII alphanumeric tokens that the
regex cleanup (line 76) can produce: nonempty and consisting of digits only. -/
def pyIsdigit (s : String) : Bool :=
  !s.isEmpty && s.toList.all Char.isDigit

/-- A token survives the filter of `TextPreprocessor.preprocess` (lines 91-96)
iff it has at least 2 characters, is not a stopword, and is not all digits. -/
def keepToken (P : Prep) (t : String) : Bool :=
  decide (2 ≤ t.length) && !P.stop t && !pyIsdigit t

/-- The token-processing loop of `TextPreprocessor.preprocess` (lines 87-105):
filter, then stem each surviving token. The argument is the token list
delivered by the external tokenizer. -/
def preprocess (P : Prep) (tokens : List String) : List String :=
  (tokens.filter (keepToken P)).map P.stem

/-! ## Indexer (services/indexer.py)

`IndexBuilder.build_index` makes two passes: pass one counts per-document
term frequencies and bumps `self.term_doc_freq[token]` once per token
occurrence (lines 64-67); pass two emits one `InvertedIndexEntry` per
(document, distinct term) pair with `tfidf = tf * idf` (lines 78-97). -/

/-- One row of the `InvertedIndexEntry` table (models.py lines 50-63). -/
structure InvertedIndexEntry where
  term : String
  publication_id : Nat
  tfidf_score : ℝ
  term_frequency : Nat

/-- Increment the counter of `t` in an insertion-ordered association list,
modelling `defaultdict(int)` updates (`d[t] += 1`). -/
def bump (l : List (String × Nat)) (t : String) : List (String × Nat) :=
  match l with
  | [] => [(t, 1)]
  | (u, n) :: rest => if u = t then (u, n + 1) :: rest else (u, n) :: bump rest t

/-- The per-document term-frequency dictionary (indexer.py lines 64-66),
keys in first-occurrence order as Python dicts preserve insertion order. -/
def countTokens (tokens : List String) : List (String × Nat) :=
  tokens.foldl bump []

/-- Dictionary lookup with the `defaultdict(int)` default of 0. -/
def lookup0 (l : List (String × Nat)) (t : String) : Nat :=
  ((l.find? (fun p => p.1 == t)).map (·.2)).getD 0

/-- The state of `self.term_doc_freq` after the pass of indexer.py lines
58-73, starting from the dictionary `tdf0` held by the builder instance
(empty for a freshly constructed `IndexBuilder`). Line 67 bumps the counter
once per token occurrence, inside the same loop as the per-document
term-frequency count. -/
def buildTdf (P : Prep) (tdf0 : List (String × Nat)) (docs : List (Nat × List String)) :
    List (String × Nat) :=
  docs.foldl (fun tdf d => (preprocess P d.2).foldl bump tdf) tdf0

/-- The `doc_terms` dictionary of indexer.py line 69: document id paired with
its term-frequency map. -/
def docTermFreqs (P : Prep) (docs : List (Nat × List String)) :
    List (Nat × List (String × Nat)) :=
  docs.map (fun d => (d.1, countTokens (preprocess P d.2)))

/-- Number of documents of the corpus whose preprocessed content contains the
term: the quantity that the spec calls the document frequency of a term. -/
def docsContaining (P : Prep) (docs : List (Nat × List String)) (t : String) : Nat :=
  (docs.filter (fun d => (preprocess P d.2).contains t)).length

/-- The data of one posting before scoring: term, document id, term frequency
and the value read from `self.term_doc_freq` (indexer.py line 84). -/
structure Posting where
  term : String
  publication_id : Nat
  term_frequency : Nat
  doc_freq : Nat
deriving DecidableEq

/-- Pass two of `build_index` (indexer.py lines 78-84) without the scoring
arithmetic: one posting per (document, distinct term) pair, in dictionary
iteration order. -/
def postings (P : Prep) (tdf0 : List (String × Nat)) (docs : List (Nat × List String)) :
    List Posting :=
  let tdf := buildTdf P tdf0 docs
  ((docTermFreqs P docs).map
    (fun d => d.2.map (fun p => Posting.mk p.1 d.1 p.2 (lookup0 tdf p.1)))).flatten

/-- The inverse-document-frequency of indexer.py line 85:
`log(total_docs / doc_freq) if doc_freq > 0 else 0`. -/
noncomputable def idf (total_docs doc_freq : Nat) : ℝ :=
  if 0 < doc_freq then Real.log ((total_docs : ℝ) / (doc_freq : ℝ)) else 0

/-- Scoring of a posting, indexer.py lines 81-97: `tfidf = tf * idf`. -/
noncomputable def entryOfPosting (total_docs : Nat) (p : Posting) : InvertedIndexEntry :=
  ⟨p.term, p.publication_id, (p.term_frequency : ℝ) * idf total_docs p.doc_freq,
    p.term_frequency⟩

/-- The dictionary returned by `IndexBuilder.build_index`: either
`{"status": "no_documents", "entries_created": 0}` (line 49) or
`{"status": "success", "documents_indexed": ..., "entries_created": ...,
"unique_terms": ...}` (lines 105-110). -/
inductive BuildResult
  | no_documents (entries_created : Nat)
  | success (documents_indexed entries_created unique_terms : Nat)
deriving DecidableEq

/-- Model of `IndexBuilder.build_index` (indexer.py lines 31-110) as a function of the
existing index table, the builder's `term_doc_freq` state `tdf0` (empty for a
fresh instance) and the corpus. On an empty corpus it returns at line 49,
before the `delete()` of line 54, so the old table is passed through
unchanged; otherwise the old table is discarded and replaced by the freshly
computed entries. Also returns the resulting index table. -/
noncomputable def build_index (P : Prep) (oldIndex : List InvertedIndexEntry)
    (tdf0 : List (String × Nat)) (docs : List (Nat × List String)) :
    BuildResult × List InvertedIndexEntry :=
  if docs.length = 0 then (.no_documents 0, oldIndex)
  else
    let entries := (postings P tdf0 docs).map (entryOfPosting docs.length)
    (.success docs.length entries.length (buildTdf P tdf0 docs).length, entries)

/-- A full rebuild as the application exposes it (management command
build_index.py line 18 constructs a fresh `IndexBuilder()` whose
`term_doc_freq` starts empty, then calls `build_index`): the resulting state
of the `InvertedIndexEntry` table. -/
noncomputable def rebuild (P : Prep) (idx : List InvertedIndexEntry)
    (docs : List (Nat × List String)) : List InvertedIndexEntry :=
  (build_index P idx [] docs).2

/-- The Django count of indexer.py line 141:
`InvertedIndexEntry.objects.filter(term=term).values("publication").distinct().count()` —
the number of distinct publication ids holding a posting for the term. -/
def docsWithTerm (idx : List InvertedIndexEntry) (t : String) : Nat :=
  (((idx.filter (fun e => e.term == t)).map (·.publication_id)).dedup).length

/-- Model of `IndexBuilder.update_index` (indexer.py lines 112-159): delete the
publication's postings (line 119), recount its term frequencies from the
re-preprocessed content (lines 124-131), then create one entry per distinct
term with `doc_freq` = distinct documents currently holding the term plus one
(line 141) and `total_docs` = the document count of the external store
queried at call time (line 122), passed here as a parameter. Returns the new
table state and `entries_created`. -/
noncomputable def update_index (P : Prep) (idx : List InvertedIndexEntry)
    (total_docs : Nat) (pubId : Nat) (tokens : List String) :
    List InvertedIndexEntry × Nat :=
  let idx1 := idx.filter (fun e => e.publication_id != pubId)
  let tf := countTokens (preprocess P tokens)
  let newEntries := tf.map (fun p =>
    (⟨p.1, pubId, (p.2 : ℝ) * idf total_docs (docsWithTerm idx1 p.1 + 1), p.2⟩ :
      InvertedIndexEntry))
  (idx1 ++ newEntries, newEntries.length)

/-! ## Search engine (services/search.py) -/

/-- The filter of search.py lines 57-59: entries whose term occurs among the
query tokens, in table order. -/
def matchingEntries (qt : List String) : List InvertedIndexEntry → List InvertedIndexEntry
  | [] => []
  | e :: rest =>
    if e.term ∈ qt then e :: matchingEntries qt rest else matchingEntries qt rest

/-- One step of the `doc_scores[entry.publication_id] += entry.tfidf_score`
accumulation (search.py line 70) over an insertion-ordered dictionary. -/
noncomputable def addScore : List (Nat × ℝ) → Nat → ℝ → List (Nat × ℝ)
  | [], i, s => [(i, s)]
  | q :: rest, i, s =>
    if q.1 = i then (q.1, q.2 + s) :: rest else q :: addScore rest i s

/-- The threshold filter of search.py lines 74-77: keep documents with
`score >= min_score_threshold`. -/
noncomputable def keepAbove (threshold : ℝ) : List (Nat × ℝ) → List (Nat × ℝ)
  | [] => []
  | p :: rest =>
    if threshold ≤ p.2 then p :: keepAbove threshold rest else keepAbove threshold rest

/-- Stable insertion into a list sorted by score descending: the new element
goes after every element with a greater or equal score, as Python's stable
`sorted(..., reverse=True)` keeps equal-keyed elements in encounter order. -/
noncomputable def insertDesc (x : Nat × ℝ) : List (Nat × ℝ) → List (Nat × ℝ)
  | [] => [x]
  | y :: ys => if x.2 ≤ y.2 then y :: insertDesc x ys else x :: y :: ys

/-- Model of `sorted(filtered_docs.items(), key=lambda x: x[1], reverse=True)`
(search.py lines 83-87) as a stable insertion sort. -/
noncomputable def sortDesc (l : List (Nat × ℝ)) : List (Nat × ℝ) :=
  l.foldl (fun acc x => insertDesc x acc) []

/-- Python slicing `l[:k]` for an arbitrary (possibly negative) int bound:
a nonnegative bound takes a prefix, a negative bound drops `-k` elements
from the end. -/
def pySlice (k : ℤ) (l : List α) : List α :=
  if 0 ≤ k then l.take k.toNat else l.take (l.length - (-k).toNat)

/-- The guard of search.py line 44, `if not query or not query.strip()`:
true iff the query is empty or consists of whitespace only. -/
def pyBlank (q : String) : Bool := q.toList.all Char.isWhitespace

/-- Model of `SearchEngine.search` (search.py lines 33-97) up to but not including the
final `round(score, 4)` attachment: the ranked list of (publication id,
aggregate score). `min_score_threshold = 0.01` and `max_results = 500` come
from `SearchEngine.__init__` (lines 29-31). `tok` abstracts the external
tokenizer applied to the query string. -/
noncomputable def searchRanked (P : Prep) (tok : String → List String)
    (idx : List InvertedIndexEntry) (q : String) (top_n : ℤ) : List (Nat × ℝ) :=
  if pyBlank q then []
  else
    let qt := preprocess P (tok q)
    if qt.isEmpty then []
    else
      let matching := matchingEntries qt idx
      if matching.isEmpty then []
      else
        let scores := matching.foldl (fun acc e => addScore acc e.publication_id e.tfidf_score) []
        let filtered := keepAbove (0.01 : ℝ) scores
        if filtered.isEmpty then []
        else pySlice (min top_n 500) (sortDesc filtered)

/-- Model of `round(score, 4)`, search.py line 93. Python rounds half to even; the
claims checked here never hit a half-way point, so Mathlib's `round` (half
up) is an adequate model. -/
noncomputable def round4 (x : ℝ) : ℝ := ((round (x * 10000) : ℤ) : ℝ) / 10000

/-- Model of `SearchEngine.search` including the rounded relevance score attached to
each returned publication (search.py lines 90-97). -/
noncomputable def search (P : Prep) (tok : String → List String)
    (idx : List InvertedIndexEntry) (q : String) (top_n : ℤ) : List (Nat × ℝ) :=
  (searchRanked P tok idx q top_n).map (fun p => (p.1, round4 p.2))

/-- Model of `SearchCache.get_cached_search` (search.py lines 138-147): an
`functools.lru_cache`-decorated method keyed on (query, top_n) that on a miss
runs a fresh search against the current index and stores the tuple of
publication ids. The cache is modelled as an association list; the LRU
eviction at maxsize 100 is not exercised by any claim. Nothing in the
repository ever calls `clear_cache`. -/
noncomputable def get_cached_search (P : Prep) (tok : String → List String)
    (idx : List InvertedIndexEntry) (cache : List ((String × ℤ) × List Nat))
    (q : String) (top_n : ℤ) : List Nat × List ((String × ℤ) × List Nat) :=
  match cache.find? (fun e => e.1.1 == q && e.1.2 == top_n) with
  | some e => (e.2, cache)
  | none =>
    let ids := (search P tok idx q top_n).map Prod.fst
    (ids, cache ++ [((q, top_n), ids)])

/-! ## Concrete collaborator instances for the scenarios

The stemmer table records the action of the external nltk Porter stemmer on
exactly the words the scenarios use; every other word is left unchanged, as
Porter does for the remaining scenario words. The stopword list is the
relevant fragment of the English stopword set (both nltk and sklearn contain
each listed word, including "do"). -/

def stopC (w : String) : Bool :=
  ["the", "a", "an", "and", "is", "of", "to", "in", "it", "do", "i", "on",
    "for", "with"].contains w

def stemTable : List (String × String) :=
  [("programming", "program"), ("language", "languag"), ("reptile", "reptil"),
    ("software", "softwar"), ("physics", "physic"), ("topology", "topolog"),
    ("machine", "machin"), ("learning", "learn"), ("dos", "do")]

def stemC (w : String) : String :=
  ((stemTable.find? (fun p => p.1 == w)).map (·.2)).getD w

def prepC : Prep := ⟨stemC, stopC⟩

/-- Whitespace tokenization: the external tokenizer's behaviour on the
already-clean lowercase scenario strings. Implemented as a structural fold
over the character list so that concrete instances evaluate by `decide`. -/
def tokC (s : String) : List String :=
  let step := fun (c : Char) (acc : List Char × List String) =>
    if c = ' ' then
      ([], if acc.1.isEmpty then acc.2 else String.mk acc.1 :: acc.2)
    else (c :: acc.1, acc.2)
  let p := s.toList.foldr step ([], [])
  if p.1.isEmpty then p.2 else String.mk p.1 :: p.2

/-! ## Scenario corpora -/

/-- Scenario A corpus of spec section 8: three documents given by their raw
token lists. -/
def docsA : List (Nat × List String) :=
  [(1, ["python", "programming", "language"]),
   (2, ["python", "snake", "reptile"]),
   (3, ["python", "programming", "code", "software"])]

/-- The index table produced by a full rebuild over the Scenario A corpus. -/
noncomputable def idxA : List InvertedIndexEntry := rebuild prepC [] docsA

/-- A one-document corpus whose only document contains the same term twice
(for instance title "python", abstract "python"). -/
def docsDup : List (Nat × List String) := [(1, ["python", "python"])]

/-! ## Claim theorems -/

/-- C1: the claim states that the document-frequency counter is bumped once
per document containing a term. The code (indexer.py line 67) bumps
`self.term_doc_freq[token]` inside the per-token loop, once per occurrence:
on a corpus whose single document contains "python" twice, the stored count
is 2 although exactly one document contains the term. This contradicts the
code's own comment (indexer.py line 28, "Number of docs containing each
term") and the spec. -/
theorem df_counted_per_occurrence :
    lookup0 (buildTdf prepC [] docsDup) "python" = 2 ∧
    docsContaining prepC docsDup "python" = 1 := by decide

/-- C2: the claim states that document frequency never exceeds corpus size
and hence no TF-IDF score is negative. On the one-document corpus whose
document contains "python" twice, the per-occurrence counting of C1 gives
doc_freq = 2 > 1 = corpus size, so the posting's score is
2 * log(1/2) < 0. -/
theorem tfidf_negative_on_repeated_term :
    (build_index prepC [] [] docsDup).2 =
      [⟨"python", 1, 2 * Real.log (1 / 2), 2⟩] ∧
    (2 : ℝ) * Real.log (1 / 2) < 0 := by
  constructor
  · have hp : postings prepC [] docsDup = [⟨"python", 1, 2, 2⟩] := by decide
    simp [build_index, hp, entryOfPosting, idf,
      (show docsDup.length = 1 by decide)]
  · exact mul_neg_of_pos_of_neg (by norm_num)
      (Real.log_neg (by norm_num) (by norm_num))

/-- C5 (amended): on an empty corpus, `build_index` returns the
"no documents" status with zero entries created and does not raise, but it
returns at indexer.py line 49, before the `delete()` of line 54: the prior
index content is passed through unchanged. -/
theorem empty_corpus_keeps_prior_index (P : Prep) (oldIndex : List InvertedIndexEntry)
    (tdf0 : List (String × Nat)) :
    build_index P oldIndex tdf0 [] = (BuildResult.no_documents 0, oldIndex) := rfl

/-- A stale index table left over from an earlier build: a single posting
for the term "beta" of document 1 with score 1. -/
def staleIdx : List InvertedIndexEntry := [⟨"beta", 1, 1, 1⟩]

/-- C5 (counterexample): the claim states that `build_index` on an empty
corpus explicitly clears the index so that any subsequent search is empty.
In fact the prior posting survives and a subsequent search for "beta" still
returns document 1. -/
theorem empty_corpus_does_not_clear :
    (build_index prepC staleIdx [] []).2 = staleIdx ∧
    searchRanked prepC tokC (build_index prepC staleIdx [] []).2 "beta" 10 =
      [(1, (1 : ℝ))] ∧
    [(1, (1 : ℝ))] ≠ ([] : List (Nat × ℝ)) := by
  refine ⟨rfl, ?_, by simp⟩
  have hq : preprocess prepC (tokC "beta") = ["beta"] := by decide
  simp [searchRanked, hq, staleIdx, matchingEntries, addScore, keepAbove,
    sortDesc, insertDesc, pySlice,
    (show pyBlank "beta" = false by decide),
    (show (0.01 : ℝ) ≤ 1 by norm_num)]

/-- C6: a full rebuild, as the application invokes it (a freshly constructed
`IndexBuilder` each time, management command build_index.py line 18), is
idempotent: rebuilding twice over an unchanged corpus leaves exactly the
postings (terms, term frequencies, document frequencies and TF-IDF scores)
of a single rebuild, because the nonempty-corpus branch discards the prior
table and recomputes entries from the corpus alone, and the empty-corpus
branch leaves the table untouched. -/
theorem rebuild_idempotent (P : Prep) (idx : List InvertedIndexEntry)
    (docs : List (Nat × List String)) :
    rebuild P (rebuild P idx docs) docs = rebuild P idx docs := by
  by_cases h : docs.length = 0 <;> simp [rebuild, build_index, h]

/-- Lower bound used by the threshold filter in Scenario A: the score
log(3/2) of the term "program" clears the 0.01 threshold. -/
lemma log_three_halves_ge : (0.01 : ℝ) ≤ Real.log (3 / 2) := by
  have h : Real.log ((2 : ℝ) / 3) ≤ (2 : ℝ) / 3 - 1 :=
    Real.log_le_sub_one_of_pos (by norm_num)
  have h2 : Real.log ((3 : ℝ) / 2) = -Real.log ((2 : ℝ) / 3) := by
    rw [← Real.log_inv]; norm_num
  rw [h2]; linarith

/-- Evaluation of the full rebuild over the Scenario A corpus. The term
"python" occurs in all three documents, so its idf is log(3/3) = 0; the term
"program" occurs in two, idf log(3/2); every other term occurs in one,
idf log 3. -/
lemma idxA_eval :
    idxA = [⟨"python", 1, 0, 1⟩, ⟨"program", 1, Real.log (3 / 2), 1⟩,
      ⟨"languag", 1, Real.log 3, 1⟩, ⟨"python", 2, 0, 1⟩,
      ⟨"snake", 2, Real.log 3, 1⟩, ⟨"reptil", 2, Real.log 3, 1⟩,
      ⟨"python", 3, 0, 1⟩, ⟨"program", 3, Real.log (3 / 2), 1⟩,
      ⟨"code", 3, Real.log 3, 1⟩, ⟨"softwar", 3, Real.log 3, 1⟩] := by
  have hp : postings prepC [] docsA =
      [⟨"python", 1, 1, 3⟩, ⟨"program", 1, 1, 2⟩, ⟨"languag", 1, 1, 1⟩,
        ⟨"python", 2, 1, 3⟩, ⟨"snake", 2, 1, 1⟩, ⟨"reptil", 2, 1, 1⟩,
        ⟨"python", 3, 1, 3⟩, ⟨"program", 3, 1, 2⟩, ⟨"code", 3, 1, 1⟩,
        ⟨"softwar", 3, 1, 1⟩] := by decide
  simp [idxA, rebuild, build_index, hp, entryOfPosting, idf,
    (show docsA.length = 3 by decide), (show (3 : ℝ) / 3 = 1 by norm_num),
    (show (3 : ℝ) / 1 = 3 by norm_num)]

/-- Evaluation of the Scenario A query "python programming" against the
rebuilt index: document 2 aggregates only the zero score of "python" and is
discarded by the 0.01 threshold; documents 1 and 3 tie at log(3/2) and the
stable descending sort keeps their encounter order. -/
lemma searchA_eval :
    searchRanked prepC tokC idxA "python programming" 10 =
      [(1, Real.log (3 / 2)), (3, Real.log (3 / 2))] := by
  have hq : preprocess prepC (tokC "python programming") = ["python", "program"] := by
    decide
  rw [idxA_eval]
  simp [searchRanked, hq, matchingEntries, addScore, keepAbove, sortDesc,
    insertDesc, pySlice, List.take_of_length_le, log_three_halves_ge,
    (show pyBlank "python programming" = false by decide),
    (show ¬((0.01 : ℝ) ≤ 0) by norm_num),
    (show min (10 : ℤ) 500 = 10 by decide),
    (show ((10 : ℤ)).toNat = 10 by rfl)]

/-- C3 (amended): on the Scenario A corpus, the query "python programming"
returns documents 1 and 3 only, tied at aggregate score log(3/2) each, in
index iteration order; document 2 is excluded because its only matching term
"python" occurs in every document, so its aggregate score is 0, below the
0.01 threshold. -/
theorem scenarioA_ranking_actual :
    searchRanked prepC tokC idxA "python programming" 10 =
      [(1, Real.log (3 / 2)), (3, Real.log (3 / 2))] :=
  searchA_eval

/-- C3 (counterexample): the claimed ranking doc3, doc1, doc2 does not occur:
doc2 is not returned at all (its score 0 falls below the threshold), and
docs 1 and 3 tie. This refutation is robust to the unspecified database
iteration order behind the tie, since doc2 is excluded under every order. -/
theorem scenarioA_ranking_claim_false :
    (searchRanked prepC tokC idxA "python programming" 10).map Prod.fst ≠
      [3, 1, 2] := by
  rw [searchA_eval]; simp

/-! ## Cache staleness (C4) -/

/-- An index state in which document 1 holds the term "quantum" with score 1,
as left by an earlier build. -/
def idxQ : List InvertedIndexEntry := [⟨"quantum", 1, 1, 1⟩]

/-- A replacement corpus that no longer contains the term "quantum". -/
def docsB : List (Nat × List String) := [(1, ["algebra"]), (2, ["topology"])]

/-- Search for "quantum" against the pre-rebuild index returns document 1. -/
lemma searchQ_eval : searchRanked prepC tokC idxQ "quantum" 10 = [(1, (1 : ℝ))] := by
  have hq : preprocess prepC (tokC "quantum") = ["quantum"] := by decide
  simp [searchRanked, hq, idxQ, matchingEntries, addScore, keepAbove, sortDesc,
    insertDesc, pySlice, List.take_of_length_le,
    (show pyBlank "quantum" = false by decide),
    (show (0.01 : ℝ) ≤ 1 by norm_num),
    (show min (10 : ℤ) 500 = 10 by decide),
    (show ((10 : ℤ)).toNat = 10 by rfl)]

/-- Evaluation of the rebuild over the replacement corpus. -/
lemma idxB_eval :
    rebuild prepC idxQ docsB =
      [⟨"algebra", 1, idf 2 1, 1⟩, ⟨"topolog", 2, idf 2 1, 1⟩] := by
  have hp : postings prepC [] docsB = [⟨"algebra", 1, 1, 1⟩, ⟨"topolog", 2, 1, 1⟩] := by
    decide
  simp [rebuild, build_index, hp, entryOfPosting,
    (show docsB.length = 2 by decide)]

/-- Search for "quantum" against the rebuilt index is empty: no posting for
the term survives the rebuild over `docsB`. -/
lemma searchB_eval : searchRanked prepC tokC (rebuild prepC idxQ docsB) "quantum" 10 = [] := by
  have hq : preprocess prepC (tokC "quantum") = ["quantum"] := by decide
  rw [idxB_eval]
  simp [searchRanked, hq, matchingEntries,
    (show pyBlank "quantum" = false by decide)]

/-- C4: caching the query "quantum" against `idxQ`, then rebuilding over a
corpus without that term, still serves the stale cached answer [1]: the
`lru_cache` of `SearchCache.get_cached_search` is never invalidated by a
rebuild (no caller of `clear_cache` exists in the repository), while a fresh
search against the rebuilt index is empty. Repeating the cached query
against the unchanged index does return identical output, which is the half
of the claim the code satisfies. -/
theorem cache_stale_after_rebuild :
    (get_cached_search prepC tokC idxQ [] "quantum" 10).1 = [1] ∧
    (get_cached_search prepC tokC idxQ
      (get_cached_search prepC tokC idxQ [] "quantum" 10).2 "quantum" 10).1 = [1] ∧
    (get_cached_search prepC tokC (rebuild prepC idxQ docsB)
      (get_cached_search prepC tokC idxQ [] "quantum" 10).2 "quantum" 10).1 = [1] ∧
    searchRanked prepC tokC (rebuild prepC idxQ docsB) "quantum" 10 = [] := by
  have hsearch : search prepC tokC idxQ "quantum" 10 = [(1, round4 1)] := by
    simp [search, searchQ_eval]
  have hstep : get_cached_search prepC tokC idxQ [] "quantum" 10 =
      ([1], [(("quantum", 10), [1])]) := by
    simp [get_cached_search, hsearch]
  refine ⟨by simp [hstep], ?_, ?_, searchB_eval⟩
  · rw [hstep]; simp [get_cached_search]
  · rw [hstep]; simp [get_cached_search]

/-! ## Incremental update (C7) -/

/-- Entries that survived the deletion of a publication's postings cannot
belong to that publication. -/
lemma filter_ne_then_eq_nil (idx : List InvertedIndexEntry) (pid : Nat) :
    (idx.filter (fun e => e.publication_id != pid)).filter
      (fun e => e.publication_id == pid) = [] := by
  induction idx with
  | nil => rfl
  | cons e t ih => by_cases h : e.publication_id = pid <;> simp [List.filter_cons, h, ih]

/-- Every entry freshly created for a publication carries its id, so the
final filter keeps all of them. -/
lemma filter_eq_pid_map (pid : Nat) (tf : List (String × Nat)) (g : String × Nat → ℝ) :
    (tf.map (fun p => (⟨p.1, pid, g p, p.2⟩ : InvertedIndexEntry))).filter
      (fun e => e.publication_id == pid) =
      tf.map (fun p => (⟨p.1, pid, g p, p.2⟩ : InvertedIndexEntry)) := by
  induction tf with
  | nil => rfl
  | cons p t ih => simp [List.filter_cons, ih]

/-- C7: the incremental update first drops every posting of the updated
publication, then creates one posting per distinct term of the re-normalized
document whose document frequency is the number of distinct documents
currently holding a posting for that term (expressed here as a finite-set
cardinality, matching the spec's wording; the code counts a deduplicated
id list, indexer.py line 141) plus one, with the store's current total
document count as the idf numerator; the returned count is the number of
postings the update created for that publication. -/
theorem update_index_spec (P : Prep) (idx : List InvertedIndexEntry)
    (total_docs pubId : Nat) (tokens : List String) :
    (update_index P idx total_docs pubId tokens).1 =
      idx.filter (fun e => e.publication_id != pubId) ++
        (countTokens (preprocess P tokens)).map (fun p =>
          (⟨p.1, pubId,
            (p.2 : ℝ) * idf total_docs
              ((((idx.filter (fun e => e.publication_id != pubId)).filter
                  (fun e => e.term == p.1)).map (·.publication_id)).toFinset.card + 1),
            p.2⟩ : InvertedIndexEntry)) ∧
    (update_index P idx total_docs pubId tokens).2 =
      (((update_index P idx total_docs pubId tokens).1).filter
        (fun e => e.publication_id == pubId)).length := by
  constructor
  · simp [update_index, docsWithTerm, List.card_toFinset]
  · simp only [update_index, List.filter_append, filter_ne_then_eq_nil,
      filter_eq_pid_map, List.nil_append, List.length_map]

/-! ## Ranking shape (C8) -/

/-- Membership after stable descending insertion. -/
lemma mem_insertDesc {x y : Nat × ℝ} {l : List (Nat × ℝ)} :
    y ∈ insertDesc x l ↔ y = x ∨ y ∈ l := by
  induction l with
  | nil => simp [insertDesc]
  | cons a t ih =>
    by_cases h : x.2 ≤ a.2
    · simp [insertDesc, h, ih]
      tauto
    · simp [insertDesc, h, ih]

/-- Stable descending insertion preserves the nonincreasing-score order. -/
lemma pairwise_insertDesc {x : Nat × ℝ} {l : List (Nat × ℝ)}
    (hl : l.Pairwise (fun a b => b.2 ≤ a.2)) :
    (insertDesc x l).Pairwise (fun a b => b.2 ≤ a.2) := by
  induction l with
  | nil => simp [insertDesc]
  | cons a t ih =>
    rcases List.pairwise_cons.mp hl with ⟨ha, ht⟩
    by_cases h : x.2 ≤ a.2
    · simp only [insertDesc, if_pos h]
      refine List.pairwise_cons.mpr ⟨?_, ih ht⟩
      intro b hb
      rcases mem_insertDesc.mp hb with rfl | hbt
      · exact h
      · exact ha b hbt
    · simp only [insertDesc, if_neg h]
      refine List.pairwise_cons.mpr ⟨?_, hl⟩
      intro b hb
      rcases List.mem_cons.mp hb with rfl | hbt
      · exact le_of_not_le h
      · exact le_trans (ha b hbt) (le_of_not_le h)

/-- Membership through the insertion-sort fold. -/
lemma mem_foldl_insertDesc (l : List (Nat × ℝ)) :
    ∀ (acc : List (Nat × ℝ)) (y : Nat × ℝ),
      y ∈ l.foldl (fun a x => insertDesc x a) acc ↔ y ∈ acc ∨ y ∈ l := by
  induction l with
  | nil => simp
  | cons a t ih =>
    intro acc y
    rw [List.foldl_cons, ih]
    rw [mem_insertDesc]
    simp
    tauto

/-- The insertion-sort fold yields a nonincreasing-score list. -/
lemma pairwise_foldl_insertDesc (l : List (Nat × ℝ)) :
    ∀ acc : List (Nat × ℝ), acc.Pairwise (fun a b => b.2 ≤ a.2) →
      (l.foldl (fun a x => insertDesc x a) acc).Pairwise (fun a b => b.2 ≤ a.2) := by
  induction l with
  | nil => exact fun acc h => h
  | cons a t ih => exact fun acc h => ih _ (pairwise_insertDesc h)

lemma sortDesc_pairwise (l : List (Nat × ℝ)) :
    (sortDesc l).Pairwise (fun a b => b.2 ≤ a.2) :=
  pairwise_foldl_insertDesc l [] (List.Pairwise.nil)

lemma mem_sortDesc {y : Nat × ℝ} {l : List (Nat × ℝ)} :
    y ∈ sortDesc l ↔ y ∈ l := by
  rw [sortDesc, mem_foldl_insertDesc]
  simp

/-- Everything the threshold filter keeps clears the threshold. -/
lemma keepAbove_le {threshold : ℝ} {l : List (Nat × ℝ)} {y : Nat × ℝ}
    (h : y ∈ keepAbove threshold l) : threshold ≤ y.2 := by
  induction l with
  | nil => simp [keepAbove] at h
  | cons a t ih =>
    by_cases ha : threshold ≤ a.2
    · rw [keepAbove, if_pos ha] at h
      rcases List.mem_cons.mp h with rfl | ht
      · exact ha
      · exact ih ht
    · rw [keepAbove, if_neg ha] at h
      exact ih h

/-- A Python slice of a list is a sublist of it. -/
lemma pySlice_sublist (k : ℤ) (l : List α) : (pySlice k l).Sublist l := by
  rw [pySlice]; split <;> exact List.take_sublist _ _

lemma length_pySlice_le (k : ℤ) (h : 0 ≤ k) (l : List α) :
    (pySlice k l).length ≤ k.toNat := by
  rw [pySlice, if_pos h, List.length_take]
  omega

/-- The search pipeline either exits early with an empty result or returns
the sliced, sorted, thresholded aggregate-score list. -/
lemma searchRanked_cases (P : Prep) (tok : String → List String)
    (idx : List InvertedIndexEntry) (q : String) (top_n : ℤ) :
    searchRanked P tok idx q top_n = [] ∨
    ∃ s : List (Nat × ℝ), searchRanked P tok idx q top_n =
      pySlice (min top_n 500) (sortDesc (keepAbove (0.01 : ℝ) s)) := by
  simp only [searchRanked]
  split
  · exact Or.inl rfl
  · split
    · exact Or.inl rfl
    · split
      · exact Or.inl rfl
      · split
        · exact Or.inl rfl
        · exact Or.inr ⟨_, rfl⟩

/-- C8 (amended): every returned document's aggregate score clears the fixed
0.01 threshold; the returned sequence is sorted by aggregate score in
nonincreasing order; and for every nonnegative requested limit the length is
at most the lesser of the limit and the hard cap 500. (For a negative limit
Python slice semantics apply instead, dropping elements from the end; see
the counterexample.) -/
theorem search_results_thresholded_sorted_bounded (P : Prep)
    (tok : String → List String) (idx : List InvertedIndexEntry) (q : String)
    (top_n : ℤ) :
    (∀ p ∈ searchRanked P tok idx q top_n, (0.01 : ℝ) ≤ p.2) ∧
    (searchRanked P tok idx q top_n).Pairwise (fun a b => b.2 ≤ a.2) ∧
    (0 ≤ top_n → (searchRanked P tok idx q top_n).length ≤ min top_n.toNat 500) := by
  rcases searchRanked_cases P tok idx q top_n with h | ⟨s, h⟩
  · rw [h]; exact ⟨by simp, List.Pairwise.nil, fun _ => by simp⟩
  · rw [h]
    refine ⟨?_, ?_, ?_⟩
    · intro p hp
      have hmem := (pySlice_sublist _ _).subset hp
      exact keepAbove_le (mem_sortDesc.mp hmem)
    · exact (sortDesc_pairwise _).sublist (pySlice_sublist _ _)
    · intro hn
      have h1 : (pySlice (min top_n 500) (sortDesc (keepAbove (0.01 : ℝ) s))).length ≤
          (min top_n 500).toNat := length_pySlice_le _ (by omega) _
      omega

/-- C8 (witness): the length bound instantiated at limit 7 on the empty
index. -/
theorem search_limit_bound_witness :
    (searchRanked prepC tokC [] "alpha" 7).length ≤ min ((7 : ℤ)).toNat 500 :=
  (search_results_thresholded_sorted_bounded prepC tokC [] "alpha" 7).2.2 (by decide)

/-- A two-document index in which both documents score 2 for a two-term
query, so that the pre-slice candidate list has two elements. -/
def idxTwo : List InvertedIndexEntry := [⟨"alpha", 1, 2, 1⟩, ⟨"beta", 2, 2, 1⟩]

/-- Evaluation of a search with the negative limit -1: Python's
`sorted_docs[:min(-1, 500)]` drops one element from the end, returning one
result. -/
lemma searchTwo_eval :
    searchRanked prepC tokC idxTwo "alpha beta" (-1) = [(1, (2 : ℝ))] := by
  have hq : preprocess prepC (tokC "alpha beta") = ["alpha", "beta"] := by decide
  have hk : keepAbove (0.01 : ℝ) [(1, (2 : ℝ)), (2, (2 : ℝ))] =
      [(1, (2 : ℝ)), (2, (2 : ℝ))] := by
    simp [keepAbove, (show (0.01 : ℝ) ≤ 2 by norm_num)]
  have hs : sortDesc [(1, (2 : ℝ)), (2, (2 : ℝ))] = [(1, (2 : ℝ)), (2, (2 : ℝ))] := by
    simp [sortDesc, insertDesc]
  simp [searchRanked, hq, idxTwo, matchingEntries, addScore, hk, hs, pySlice,
    (show pyBlank "alpha beta" = false by decide),
    (show min (-1 : ℤ) 500 = -1 by decide),
    (show ¬((0 : ℤ) ≤ -1) by decide),
    (show List.take 1 [(1, (2 : ℝ)), (2, (2 : ℝ))] = [(1, (2 : ℝ))] from rfl)]

/-- C8 (counterexample): with the result limit -1 the returned sequence has
length 1, exceeding min(-1, 500) = -1, so the claimed bound fails for
negative limits. -/
theorem search_limit_negative_cex :
    ¬(((searchRanked prepC tokC idxTwo "alpha beta" (-1)).length : ℤ) ≤
      min (-1) 500) := by
  rw [searchTwo_eval]
  decide

/-! ## Degenerate queries (C9) -/

/-- When no index entry's term occurs among the query tokens, the matching
pass finds nothing. -/
lemma matchingEntries_eq_nil (qt : List String) (idx : List InvertedIndexEntry)
    (h : ∀ e ∈ idx, e.term ∉ qt) : matchingEntries qt idx = [] := by
  induction idx with
  | nil => rfl
  | cons e t ih =>
    rw [matchingEntries, if_neg (h e (List.mem_cons_self e t))]
    exact ih fun x hx => h x (List.mem_cons_of_mem e hx)

/-- C9: a blank query, a query that normalizes to zero tokens, and a query
none of whose normalized terms occurs in the index all yield the empty
result, without raising (search.py lines 44-63: each case returns an empty
list through a total code path). -/
theorem degenerate_query_returns_empty (P : Prep) (tok : String → List String)
    (idx : List InvertedIndexEntry) (q : String) (top_n : ℤ) :
    (pyBlank q = true → searchRanked P tok idx q top_n = []) ∧
    (preprocess P (tok q) = [] → searchRanked P tok idx q top_n = []) ∧
    ((∀ e ∈ idx, e.term ∉ preprocess P (tok q)) →
      searchRanked P tok idx q top_n = []) := by
  refine ⟨fun h => by simp [searchRanked, h], fun h => by simp [searchRanked, h], fun h => ?_⟩
  have hm := matchingEntries_eq_nil (preprocess P (tok q)) idx h
  simp [searchRanked, hm]

/-- C9 (witness): a whitespace query, a stopword-only query, and a query for
a term absent from the index each return the empty result. -/
theorem degenerate_query_witness :
    searchRanked prepC tokC [] "   " 5 = [] ∧
    searchRanked prepC tokC [] "the" 5 = [] ∧
    searchRanked prepC tokC staleIdx "gamma" 5 = [] := by
  refine ⟨(degenerate_query_returns_empty prepC tokC [] "   " 5).1 (by decide),
    (degenerate_query_returns_empty prepC tokC [] "the" 5).2.1 (by decide),
    (degenerate_query_returns_empty prepC tokC staleIdx "gamma" 5).2.2 ?_⟩
  intro e he
  rw [staleIdx, List.mem_singleton] at he
  subst he
  decide

/-! ## Preprocessor filter guarantees (C10) -/

/-- C10 (amended): every term the preprocessor emits — and hence every term
either index-build path stores — is the stem of a raw token that passed the
filter (at least 2 characters, not a stopword, not all digits); and a query
all of whose raw tokens fail the filter normalizes to zero tokens, so the
search returns the empty result regardless of the corpus. The filter runs
before stemming (preprocessor.py lines 91-99), so the stored, stemmed term
itself need not satisfy the three conditions; see the counterexample. -/
theorem preprocess_filter_guarantees :
    (∀ (P : Prep) (tokens : List String) (t : String), t ∈ preprocess P tokens →
      ∃ raw, raw ∈ tokens ∧ t = P.stem raw ∧ keepToken P raw = true) ∧
    (∀ (P : Prep) (tok : String → List String) (idx : List InvertedIndexEntry)
      (q : String) (top_n : ℤ), (tok q).all (fun r => !keepToken P r) = true →
      searchRanked P tok idx q top_n = []) := by
  constructor
  · intro P tokens t ht
    rw [preprocess] at ht
    rcases List.mem_map.mp ht with ⟨raw, hraw, hst⟩
    rcases List.mem_filter.mp hraw with ⟨hmem, hkeep⟩
    exact ⟨raw, hmem, hst.symm, hkeep⟩
  · intro P tok idx q top_n h
    have hz : preprocess P (tok q) = [] := by
      rw [preprocess]
      have := List.all_eq_true.mp h
      simp only [List.map_eq_nil_iff, List.filter_eq_nil_iff]
      intro a ha
      have hb := this a ha
      simp only [Bool.not_eq_true'] at hb
      simp [hb]
    simp [searchRanked, hz]

/-- C10 (witness): the stem "machin" stored for the token "machine" comes
from a filtered raw token, and the query "a 42 the" (a one-letter token, a
pure number and a stopword) returns the empty result. -/
theorem preprocess_filter_witness :
    (∃ raw, raw ∈ ["machine"] ∧ "machin" = prepC.stem raw ∧
      keepToken prepC raw = true) ∧
    searchRanked prepC tokC staleIdx "a 42 the" 9 = [] :=
  ⟨preprocess_filter_guarantees.1 prepC ["machine"] "machin" (by decide),
    preprocess_filter_guarantees.2 prepC tokC staleIdx "a 42 the" 9 (by decide)⟩

/-- A corpus containing the token "dos" (for instance the lowercased acronym
DOS), which passes the filter but whose Porter stem is the stopword "do". -/
def docsD : List (Nat × List String) := [(1, ["dos", "unix"])]

/-- C10 (counterexample): the filter runs on raw tokens before stemming, so
the stored term can itself violate the filter conditions: building over a
document containing "dos" stores the term "do" — the nltk Porter stemmer
maps "dos" to "do", as recorded in `stemTable` — and "do" is an English
stopword (present in both the nltk and sklearn stopword lists, and in
`stopC`). This refutes the claim that every stored term is not a stopword. -/
theorem stored_term_stopword_cex :
    "do" ∈ ((build_index prepC [] [] docsD).2).map (fun e => e.term) ∧
    stopC "do" = true := by
  constructor
  · have hp : postings prepC [] docsD = [⟨"do", 1, 1, 1⟩, ⟨"unix", 1, 1, 1⟩] := by
      decide
    simp [build_index, hp, entryOfPosting, (show docsD.length = 1 by decide)]
  · decide

end IRSearch
